import Mathlib

/-!
Verification of the CarbonCheck credits engine (src/server/server.js).

The JavaScript source is shallowly embedded: JS numbers are modelled as
`JSNum` (a rational, NaN, or a signed infinity, with IEEE-style comparison
and arithmetic; the negative-zero distinction is not modelled), JSON field
values as `JSVal`, and the Mongo-backed collections as in-memory lists
inside an explicit state `St`.  Each HTTP handler of the credits engine
becomes a pure state-transition function.  `toFixed` rounding is modelled
as exact half-up decimal rounding on rationals.
-/

namespace Carbon

/-- Model of a JavaScript number: NaN, the two infinities, or a finite
value (modelled as an exact rational; double rounding is not modelled). -/
inductive JSNum where
  | nan : JSNum
  | posInf : JSNum
  | negInf : JSNum
  | fin (q : ℚ) : JSNum
deriving DecidableEq, Repr

/-- `Number.isNaN`. -/
def JSNum.isNaN : JSNum → Bool
  | .nan => true
  | _ => false

/-- `Number.isFinite`. -/
def JSNum.isFinite : JSNum → Bool
  | .fin _ => true
  | _ => false

/-- JS truthiness of a number: everything except `NaN` and `0` is truthy. -/
def JSNum.truthy : JSNum → Bool
  | .nan => false
  | .fin q => !(q = 0 : Bool)
  | _ => true

/-- JS `<` on numbers: any comparison with NaN is false. -/
def JSNum.lt : JSNum → JSNum → Bool
  | .nan, _ => false
  | _, .nan => false
  | .negInf, .negInf => false
  | .negInf, _ => true
  | _, .negInf => false
  | .posInf, _ => false
  | .fin _, .posInf => true
  | .fin a, .fin b => decide (a < b)

/-- JS `<=` on numbers: false if either side is NaN, else the negation of
the reversed `<`. -/
def JSNum.le (a b : JSNum) : Bool :=
  if a.isNaN || b.isNaN then false else !(JSNum.lt b a)

/-- JS `+` on numbers. -/
def JSNum.add : JSNum → JSNum → JSNum
  | .nan, _ => .nan
  | _, .nan => .nan
  | .posInf, .negInf => .nan
  | .negInf, .posInf => .nan
  | .posInf, _ => .posInf
  | _, .posInf => .posInf
  | .negInf, _ => .negInf
  | _, .negInf => .negInf
  | .fin a, .fin b => .fin (a + b)

/-- JS `*` on numbers (`0 * ±Infinity = NaN`). -/
def JSNum.mul : JSNum → JSNum → JSNum
  | .nan, _ => .nan
  | _, .nan => .nan
  | .posInf, .posInf => .posInf
  | .posInf, .negInf => .negInf
  | .negInf, .posInf => .negInf
  | .negInf, .negInf => .posInf
  | .posInf, .fin b => if 0 < b then .posInf else if b < 0 then .negInf else .nan
  | .fin a, .posInf => if 0 < a then .posInf else if a < 0 then .negInf else .nan
  | .negInf, .fin b => if 0 < b then .negInf else if b < 0 then .posInf else .nan
  | .fin a, .negInf => if 0 < a then .negInf else if a < 0 then .posInf else .nan
  | .fin a, .fin b => .fin (a * b)

/-- JS `/` on numbers (division by zero yields a signed infinity, `0/0`
yields NaN; the zero divisor is treated as `+0`). -/
def JSNum.div : JSNum → JSNum → JSNum
  | .nan, _ => .nan
  | _, .nan => .nan
  | .posInf, .posInf => .nan
  | .posInf, .negInf => .nan
  | .negInf, .posInf => .nan
  | .negInf, .negInf => .nan
  | .posInf, .fin b => if 0 ≤ b then .posInf else .negInf
  | .negInf, .fin b => if 0 ≤ b then .negInf else .posInf
  | .fin _, .posInf => .fin 0
  | .fin _, .negInf => .fin 0
  | .fin a, .fin b =>
      if b = 0 then (if a = 0 then .nan else if 0 < a then .posInf else .negInf)
      else .fin (a / b)

/-- Half-up rounding of a rational to two decimal places; models
`Number(x.toFixed(2))` on finite values (ECMAScript `toFixed` picks the
closer representation and the larger one on ties). -/
def qRound2 (q : ℚ) : ℚ := (⌊q * 100 + 1 / 2⌋ : ℚ) / 100

/-- `Number(x.toFixed(2))` on a JS number: rounds finite values to two
decimals; `NaN` and the infinities round-trip through the string form
unchanged. -/
def JSNum.roundFixed2 : JSNum → JSNum
  | .fin q => .fin (qRound2 q)
  | x => x

/-- Model of a JSON field value as it can appear in a request body for a
numeric field: absent (`undefined`), `null`, a number, or a boolean.
String-valued numeric fields are outside the modelled universe. -/
inductive JSVal where
  | undef : JSVal
  | null : JSVal
  | num (n : JSNum) : JSVal
  | bool (b : Bool) : JSVal
deriving DecidableEq, Repr

/-- JS truthiness of a field value. -/
def JSVal.truthy : JSVal → Bool
  | .undef => false
  | .null => false
  | .num n => n.truthy
  | .bool b => b

/-- JS `ToNumber` coercion of a field value. -/
def JSVal.toNumber : JSVal → JSNum
  | .undef => .nan
  | .null => .fin 0
  | .num n => n
  | .bool b => .fin (if b then 1 else 0)

/-- The numeric value of `(v || 0)` as used in arithmetic: a falsy field
is replaced by `0`, a truthy one is coerced with `ToNumber`. -/
def JSVal.orZeroNum (v : JSVal) : JSNum :=
  if v.truthy then v.toNumber else .fin 0

/-- `typeof v === "number"` (true for NaN and the infinities as well). -/
def JSVal.isNumber : JSVal → Bool
  | .num _ => true
  | _ => false

/-- `VEHICLE_EMISSIONS` lookup table (kg CO2e per km). -/
def VEHICLE_EMISSIONS : List (String × ℚ) :=
  [(("car-petrol"), 171 / 1000),
   (("car-diesel"), 168 / 1000),
   (("car-electric"), 53 / 1000),
   (("motorcycle"), 103 / 1000),
   (("public-transport"), 41 / 1000),
   (("bicycle"), 0)]

/-- `DIET_EMISSIONS` lookup table (kg CO2e per day). -/
def DIET_EMISSIONS : List (String × ℚ) :=
  [(("meat-heavy"), 719 / 100),
   (("meat-moderate"), 563 / 100),
   (("pescatarian"), 391 / 100),
   (("vegetarian"), 381 / 100),
   (("vegan"), 289 / 100)]

def ELECTRICITY_FACTOR : ℚ := 475 / 1000

def GAS_FACTOR : ℚ := 2

/-- `VEHICLE_EMISSIONS[vt] || 0`: unknown or absent vehicle types map to
factor 0. -/
def vehicleFactor (vt : Option String) : ℚ :=
  match vt with
  | none => 0
  | some s => (VEHICLE_EMISSIONS.lookup s).getD 0

/-- `DIET_EMISSIONS[dt] || 0`: unknown or absent diet types map to 0. -/
def dietFactor (dt : Option String) : ℚ :=
  match dt with
  | none => 0
  | some s => (DIET_EMISSIONS.lookup s).getD 0

/-- A request body for the footprint endpoints.  `user` is the empty
string when absent (both are falsy in JS); enum fields are `none` when
absent; numeric fields carry raw JSON values. -/
structure Payload where
  user : String := ("")
  date : Option String := none
  vehicle_type : Option String := none
  distance_daily : JSVal := .undef
  diet_type : Option String := none
  electricity_usage : JSVal := .undef
  gas_usage : JSVal := .undef
  travel_emissions : JSVal := .undef
  food_emissions : JSVal := .undef
  energy_emissions : JSVal := .undef
  total_score : JSVal := .undef
deriving DecidableEq, Repr

/-- Result of `deriveEmissions`. -/
structure Emissions where
  travel : JSNum
  food : JSNum
  energy : JSNum
  total : JSNum
deriving DecidableEq, Repr

/-- `deriveEmissions(payload)`: travel, food, energy and total emissions
from the raw lifestyle fields, with `|| 0` coercions as in the source. -/
def deriveEmissions (p : Payload) : Emissions :=
  let travel := JSNum.mul (.fin (vehicleFactor p.vehicle_type)) p.distance_daily.orZeroNum
  let food : JSNum := .fin (dietFactor p.diet_type)
  let dailyElectricity := JSNum.div p.electricity_usage.orZeroNum (.fin 30)
  let dailyGas := JSNum.div p.gas_usage.orZeroNum (.fin 30)
  let energy :=
    JSNum.add (JSNum.mul dailyElectricity (.fin ELECTRICITY_FACTOR))
      (JSNum.mul dailyGas (.fin GAS_FACTOR))
  let total := JSNum.add (JSNum.add travel food) energy
  { travel := travel, food := food, energy := energy, total := total }

/-- A stored footprint document.  The raw input fields are stored as
received (Mongoose numeric casting on save is not modelled; no claim reads
the raw fields back), the four derived fields are always numbers after a
successful save. -/
structure FRecord where
  id : Nat
  user : String
  date : String
  vehicle_type : Option String
  distance_daily : JSVal
  diet_type : Option String
  electricity_usage : JSVal
  gas_usage : JSVal
  travel_emissions : JSNum
  food_emissions : JSNum
  energy_emissions : JSNum
  total_score : JSNum
deriving DecidableEq, Repr

/-- A wallet document (`walletSchema`). -/
structure Wallet where
  user : String
  credits : ℚ
  lastUpdated : Nat
deriving DecidableEq, Repr

/-- Transaction kind (`type` enum of `creditTransactionSchema`). -/
inductive TxnType where
  | earn : TxnType
  | bonus : TxnType
deriving DecidableEq, Repr

/-- The human-readable `reason` string of a transaction, modelled as the
structured data the template string is built from (the `toFixed(1)`
formatting is injective up to that data, so equality of reasons is
refined, never coarsened, by this abstraction). -/
inductive TxnReason where
  | dailyFootprint (dateLabel : String) (score : JSNum) : TxnReason
  | improvedScore (previousScore : Option JSNum) : TxnReason
deriving DecidableEq, Repr

/-- A credit-transaction document (`creditTransactionSchema`). -/
structure Txn where
  user : String
  amount : ℚ
  type : TxnType
  reason : TxnReason
  date : Nat
deriving DecidableEq, Repr

/-- The persistent store: the three Mongo collections and a counter
supplying fresh document ids.  Timestamps are abstract `Nat` ticks
supplied by the callers. -/
structure St where
  footprints : List FRecord
  wallets : List Wallet
  txns : List Txn
  nextId : Nat
deriving DecidableEq, Repr

/-- The empty store. -/
def initState : St := ⟨[], [], [], 0⟩

/-- Error outcomes of the handlers (HTTP 400 / 409 / 404 and the 500 the
catch-all produces when `awardCreditsForFootprint` throws). -/
inductive Err where
  | invalidRequest : Err
  | duplicateSubmission : Err
  | notFound : Err
deriving DecidableEq, Repr

/-- `Wallet.findOne({ user })`. -/
def findWallet (s : St) (user : String) : Option Wallet :=
  s.wallets.find? (fun w => decide (w.user = user))

/-- Persisting a wallet for `user`: replaces the stored wallet document
for that user, or inserts it if absent (`Wallet.create` / `wallet.save`;
the `user` field carries a unique index). -/
def setWallet (s : St) (user : String) (w : Wallet) : St :=
  if (findWallet s user).isSome then
    { s with wallets := s.wallets.map (fun x => if x.user = user then w else x) }
  else
    { s with wallets := s.wallets ++ [w] }

/-- The credit balance a user's wallet shows (0 if no wallet exists). -/
def walletCredits (s : St) (user : String) : ℚ :=
  ((findWallet s user).map Wallet.credits).getD 0

/-- Sum of the amounts of all transactions recorded for `user`. -/
def txnSum (s : St) (user : String) : ℚ :=
  ((s.txns.filter (fun t => decide (t.user = user))).map Txn.amount).sum

/-- `baseCreditsForScore(score)` with JS comparison semantics. -/
def baseCreditsForScore (score : JSNum) : Nat :=
  if JSNum.lt score (.fin 10) then 5
  else if JSNum.le score (.fin 20) then 3
  else 1

/-- The bonus computed at `server.js:156`:
`previousScore !== null && numericScore < previousScore ? 2 : 0`. -/
def bonusCredits (score : JSNum) (previousScore : Option JSNum) : Nat :=
  match previousScore with
  | none => 0
  | some p => if JSNum.lt score p then 2 else 0

/-- Among a list of records, the one with the lexicographically greatest
`date`, keeping the earliest stored on ties (`findOne` with
`sort({date:-1})`). -/
def latestBefore (l : List FRecord) : Option FRecord :=
  l.foldl
    (fun acc r =>
      match acc with
      | none => some r
      | some b => if b.date < r.date then some r else some b)
    none

/-- `getPreviousScore(user, currentDate)`: the `total_score` of the most
recent footprint of `user` strictly before `currentDate` (string order on
`YYYY-MM-DD` dates), or `none`.  A record's `total_score` is always of JS
type number in the model, matching the `typeof === "number"` guard. -/
def getPreviousScore (s : St) (user currentDate : String) : Option JSNum :=
  match latestBefore
      (s.footprints.filter
        (fun r => decide (r.user = user) && decide (r.date < currentDate))) with
  | none => none
  | some r => some r.total_score

/-- `footprintDate || today`: a missing or empty (falsy) date defaults to
the current day. -/
def resolveDate (d : Option String) (today : String) : String :=
  match d with
  | none => today
  | some s => if s = ("") then today else s

/-- The JSON body returned by `awardCreditsForFootprint`. -/
structure AwardSummary where
  baseCredits : Nat
  bonusCredits : Nat
  totalAwarded : Nat
  wallet : Wallet
  transactions : List Txn
deriving DecidableEq, Repr

/-- `awardCreditsForFootprint({user, score, footprintDate})`
(server.js:147-196).  Validation rejects a falsy user or a NaN score
(`Number.isNaN`); otherwise the base and bonus transactions are inserted
and the wallet balance is incremented by their total.  `ensureWallet`
cannot throw here because the user was already checked. -/
def awardCreditsForFootprint (s : St) (user : String) (score : JSNum)
    (footprintDate : Option String) (today : String) (now : Nat) :
    St × Except Err AwardSummary :=
  if user = ("") ∨ score.isNaN then (s, .error .invalidRequest)
  else
    let dateLabel := resolveDate footprintDate today
    let base := baseCreditsForScore score
    let prev := getPreviousScore s user dateLabel
    let bonus := bonusCredits score prev
    let baseTxn : Txn := ⟨user, (base : ℚ), .earn, .dailyFootprint dateLabel score, now⟩
    let newTxns :=
      if bonus > 0 then
        [baseTxn, ⟨user, (bonus : ℚ), .bonus, .improvedScore prev, now⟩]
      else [baseTxn]
    let s1 := { s with txns := s.txns ++ newTxns }
    let w0 := (findWallet s1 user).getD ⟨user, 0, now⟩
    let w1 := { w0 with credits := w0.credits + ((base : ℚ) + (bonus : ℚ)), lastUpdated := now }
    let s2 := setWallet s1 user w1
    (s2, .ok ⟨base, bonus, base + bonus, w1, newTxns⟩)

/-- `typeof v !== "number" ? d : v` for backfilling a derived field. -/
def numOr (v : JSVal) (d : JSNum) : JSNum :=
  match v with
  | .num n => n
  | _ => d

/-- `POST /api/footprints` (server.js:243-304): reject a missing user,
default the date, reject a duplicate (user, date) pair before writing,
backfill the derived emission fields that were not supplied as numbers,
save the record, then auto-award credits.  The auto-award guard
`body.user && typeof body.total_score === "number"` always holds after
the backfill.  If the award throws, the handler answers 500 but the
footprint stays saved. -/
def submitFootprint (s : St) (body : Payload) (today : String) (now : Nat) :
    St × Except Err AwardSummary :=
  if body.user = ("") then (s, .error .invalidRequest)
  else
    let date := resolveDate body.date today
    if (s.footprints.find?
        (fun r => decide (r.user = body.user) && decide (r.date = date))).isSome then
      (s, .error .duplicateSubmission)
    else
      let em := deriveEmissions body
      let entry : FRecord :=
        ⟨s.nextId, body.user, date, body.vehicle_type, body.distance_daily,
          body.diet_type, body.electricity_usage, body.gas_usage,
          numOr body.travel_emissions em.travel.roundFixed2,
          numOr body.food_emissions em.food.roundFixed2,
          numOr body.energy_emissions em.energy.roundFixed2,
          numOr body.total_score em.total.roundFixed2⟩
      let s1 := { s with footprints := s.footprints ++ [entry], nextId := s.nextId + 1 }
      awardCreditsForFootprint s1 body.user entry.total_score (some date) today now

/-- `POST /api/credits/earn` (server.js:366-386): rejects a falsy user or
a score whose JS type is not number, then delegates to
`awardCreditsForFootprint`. -/
def manualEarn (s : St) (user : String) (score : JSVal) (date : Option String)
    (today : String) (now : Nat) : St × Except Err AwardSummary :=
  if user = ("") ∨ score.isNumber = false then (s, .error .invalidRequest)
  else awardCreditsForFootprint s user score.toNumber date today now

/-- `GET /api/credits/wallet/:user` (server.js:389-420): calls
`ensureWallet`, which creates a zero-credit wallet when the user has
none.  The `todayCredits` and `recentTransactions` parts of the response
are pure reads of the transaction collection and do not affect the store;
they are omitted from the modelled response. -/
def getWalletOp (s : St) (user : String) (now : Nat) : St × Except Err Wallet :=
  if user = ("") then (s, .error .invalidRequest)
  else
    match findWallet s user with
    | some w => (s, .ok w)
    | none => ({ s with wallets := s.wallets ++ [⟨user, 0, now⟩] }, .ok ⟨user, 0, now⟩)

/-- A `PUT /api/footprints/:id` request body.  The outer `none` means the
field is absent from the body (so `findByIdAndUpdate` does not touch it).
Bodies that set `user`, `date`, or the four derived fields directly are
outside the modelled universe. -/
structure UpdateBody where
  vehicle_type : Option (Option String) := none
  distance_daily : Option JSVal := none
  diet_type : Option (Option String) := none
  electricity_usage : Option JSVal := none
  gas_usage : Option JSVal := none
deriving DecidableEq, Repr

/-- The `updates` object as `deriveEmissions` sees it: fields absent from
the request body are `undefined`. -/
def UpdateBody.toPayload (b : UpdateBody) : Payload :=
  { user := (""), date := none,
    vehicle_type := b.vehicle_type.join,
    distance_daily := b.distance_daily.getD .undef,
    diet_type := b.diet_type.join,
    electricity_usage := b.electricity_usage.getD .undef,
    gas_usage := b.gas_usage.getD .undef }

/-- Overlay an update body onto a stored record, installing the four
derived fields recomputed by the handler whenever they are finite
(`Number.isFinite` guard) and keeping the stored values otherwise. -/
def applyUpdates (r : FRecord) (b : UpdateBody) (em : Emissions) : FRecord :=
  { r with
    vehicle_type := b.vehicle_type.getD r.vehicle_type,
    distance_daily := b.distance_daily.getD r.distance_daily,
    diet_type := b.diet_type.getD r.diet_type,
    electricity_usage := b.electricity_usage.getD r.electricity_usage,
    gas_usage := b.gas_usage.getD r.gas_usage,
    travel_emissions := if em.travel.isFinite then em.travel.roundFixed2 else r.travel_emissions,
    food_emissions := if em.food.isFinite then em.food.roundFixed2 else r.food_emissions,
    energy_emissions := if em.energy.isFinite then em.energy.roundFixed2 else r.energy_emissions,
    total_score := if em.total.isFinite then em.total.roundFixed2 else r.total_score }

/-- `findByIdAndUpdate`: replace the document with the given id. -/
def replaceById (l : List FRecord) (id : Nat) (r1 : FRecord) : List FRecord :=
  l.map (fun x => if x.id = id then r1 else x)

/-- `PUT /api/footprints/:id` (server.js:331-363): the emissions are
recomputed from the request body ALONE (`deriveEmissions(updates)` where
`updates = {...req.body}`), installed when finite, and the result is
merged into the stored record; 404 when no record has that id. -/
def updateFootprint (s : St) (id : Nat) (b : UpdateBody) :
    St × Except Err FRecord :=
  let em := deriveEmissions b.toPayload
  match s.footprints.find? (fun r => decide (r.id = id)) with
  | none => (s, .error .notFound)
  | some r =>
      let r1 := applyUpdates r b em
      ({ s with footprints := replaceById s.footprints id r1 }, .ok r1)

/-- Modelled from claim C5's words, NOT from the source: the update is
said to recompute the four derived fields from the MERGED field set (the
existing record's fields overlaid with the supplied partial fields).
Used only to refute the claim by comparison with `updateFootprint`. -/
def updateFootprintMerged (s : St) (id : Nat) (b : UpdateBody) :
    St × Except Err FRecord :=
  match s.footprints.find? (fun r => decide (r.id = id)) with
  | none => (s, .error .notFound)
  | some r =>
      let merged : Payload :=
        { user := r.user, date := some r.date,
          vehicle_type := b.vehicle_type.getD r.vehicle_type,
          distance_daily := b.distance_daily.getD r.distance_daily,
          diet_type := b.diet_type.getD r.diet_type,
          electricity_usage := b.electricity_usage.getD r.electricity_usage,
          gas_usage := b.gas_usage.getD r.gas_usage }
      let em := deriveEmissions merged
      let r1 := applyUpdates r b em
      ({ s with footprints := replaceById s.footprints id r1 }, .ok r1)

/-- Claim C7's reading of a raw numeric field: every missing or
non-numeric input is treated as 0; a finite number is kept.  Used to
state the claim's version of `deriveEmissions`. -/
def jsvalClaimZero (v : JSVal) : ℚ :=
  match v with
  | .num (.fin q) => q
  | _ => 0

/-- Modelled from claim C7's words, NOT from the source: the emission
formulas with every missing or non-numeric input treated as 0.  Used to
compare with `deriveEmissions`. -/
def deriveEmissionsClaimC7 (p : Payload) : Emissions :=
  let travel := vehicleFactor p.vehicle_type * jsvalClaimZero p.distance_daily
  let food := dietFactor p.diet_type
  let energy := jsvalClaimZero p.electricity_usage / 30 * ELECTRICITY_FACTOR +
    jsvalClaimZero p.gas_usage / 30 * GAS_FACTOR
  ⟨.fin travel, .fin food, .fin energy, .fin (travel + food + energy)⟩

/-- A numeric request field that is absent, null, NaN, or a finite
number — the universe on which the "treated as 0" reading of the
coercions is exact. -/
def finOrMissing : JSVal → Bool
  | .num .posInf => false
  | .num .negInf => false
  | .bool _ => false
  | _ => true

/-- The credit-award operations of claim C1: a footprint submission
(which awards as a side effect) or a manual award. -/
inductive Op where
  | submit (body : Payload) (today : String) (now : Nat) : Op
  | earn (user : String) (score : JSVal) (date : Option String)
      (today : String) (now : Nat) : Op
deriving DecidableEq, Repr

/-- The store after one operation. -/
def stepOp (s : St) : Op → St
  | .submit b t n => (submitFootprint s b t n).1
  | .earn u sc d t n => (manualEarn s u sc d t n).1

/-- The store after a sequence of operations. -/
def runOps (s : St) (l : List Op) : St := l.foldl stepOp s

/-- The store after a sequence of footprint submissions. -/
def runSubmits (s : St) (l : List (Payload × String × Nat)) : St :=
  l.foldl (fun s x => (submitFootprint s x.1 x.2.1 x.2.2).1) s

/-- Reconciliation invariant: every user's wallet balance equals the sum
of that user's transaction amounts. -/
def reconciled (s : St) : Prop := ∀ u, walletCredits s u = txnSum s u

/-- At most one footprint record per (user, date) pair. -/
def uniquePairs (s : St) : Prop :=
  ∀ r1 ∈ s.footprints, ∀ r2 ∈ s.footprints,
    r1.user = r2.user → r1.date = r2.date → r1 = r2

/-- The user owns a wallet document. -/
def hasWallet (s : St) (u : String) : Prop := ∃ w ∈ s.wallets, w.user = u

/-- The user owns at least one footprint record. -/
def hasFootprints (s : St) (u : String) : Prop := ∃ r ∈ s.footprints, r.user = u

/-- Whether an `Except` result is a success. -/
def exceptOk {ε α : Type} : Except ε α → Bool
  | .ok _ => true
  | .error _ => false

/-- All footprint records of a user. -/
def recsFor (s : St) (u : String) : List FRecord :=
  s.footprints.filter (fun r => decide (r.user = u))

/-- The `$group` aggregation of `GET /api/admin/credits`: per user, the
average `total_score` (`$avg`, i.e. sum divided by count) and the record
count, or `none` for a user with no records. -/
def aggFor (s : St) (u : String) : Option (JSNum × Nat) :=
  let l := recsFor s u
  if l.isEmpty then none
  else some ((l.foldl (fun (a : JSNum) r => a.add r.total_score) (.fin 0)).div (.fin l.length), l.length)

/-- Deduplication keeping first occurrences (JS `Set` insertion order). -/
def dedupFirst : List String → List String
  | [] => []
  | x :: xs => x :: dedupFirst (xs.filter (fun y => decide (y ≠ x)))
termination_by l => l.length
decreasing_by
  simp only [List.length_cons]
  exact Nat.lt_succ_of_le (List.length_filter_le _ _)

/-- The users of the wallet collection, in stored order. -/
def walletUsers (s : St) : List String := s.wallets.map Wallet.user

/-- The distinct users of the footprint aggregation. -/
def footprintUsers (s : St) : List String :=
  dedupFirst (s.footprints.map FRecord.user)

/-- `new Set([...wallets.map(w => w.user), ...averages.map(a => a._id)])`. -/
def adminUsers (s : St) : List String :=
  dedupFirst (walletUsers s ++ footprintUsers s)

/-- One row of the admin summary's `employees[]`. -/
structure Employee where
  user : String
  credits : ℚ
  lastUpdated : Option Nat
  averageScore : Option JSNum
  entries : Nat
deriving DecidableEq, Repr

/-- The employee row built for one user (server.js:466-476), with the
`|| 0` and `|| null` coercions of the source. -/
def employeeFor (s : St) (u : String) : Employee :=
  { user := u,
    credits := ((findWallet s u).map Wallet.credits).getD 0,
    lastUpdated :=
      match findWallet s u with
      | none => none
      | some w => if w.lastUpdated = 0 then none else some w.lastUpdated,
    averageScore :=
      match aggFor s u with
      | none => none
      | some (a, _) => if a.truthy then some a else none,
    entries := ((aggFor s u).map Prod.snd).getD 0 }

/-- The `employees[]` array of the admin summary. -/
def adminEmployees (s : St) : List Employee :=
  (adminUsers s).map (employeeFor s)

/-- The `averages` aggregation result as a list (one row per user with
records). -/
def aggList (s : St) : List (String × JSNum × Nat) :=
  (footprintUsers s).map (fun u => (u, (aggFor s u).getD (.fin 0, 0)))

/-- `item.averageScore || 0`: the addend a user's average contributes to
the organization-wide sum. -/
def orgTerm (a : JSNum) : JSNum := if a.truthy then a else .fin 0

/-- The organization-wide average: mean of the per-user averages over the
users that have records, or 0 when none do (server.js:486-489). -/
def orgAverage (s : St) : JSNum :=
  let l := aggList s
  if l.isEmpty then .fin 0
  else (l.foldl (fun (acc : JSNum) x => acc.add (orgTerm x.2.1)) (.fin 0)).div (.fin l.length)

/-- The previous-score lookup the award performs (abbreviation of the
corresponding step of `awardCreditsForFootprint`). -/
def awardPrev (s : St) (u : String) (d : Option String) (today : String) : Option JSNum :=
  getPreviousScore s u (resolveDate d today)

/-- The bonus the award computes (abbreviation). -/
def awardBonus (s : St) (u : String) (score : JSNum) (d : Option String)
    (today : String) : Nat :=
  bonusCredits score (awardPrev s u d today)

/-- The transactions a successful award inserts (abbreviation). -/
def awardTxns (s : St) (u : String) (score : JSNum) (d : Option String)
    (today : String) (now : Nat) : List Txn :=
  let baseTxn : Txn :=
    ⟨u, (baseCreditsForScore score : ℚ), .earn,
      .dailyFootprint (resolveDate d today) score, now⟩
  if awardBonus s u score d today > 0 then
    [baseTxn, ⟨u, (awardBonus s u score d today : ℚ), .bonus,
      .improvedScore (awardPrev s u d today), now⟩]
  else [baseTxn]

/-- Total credits a successful award grants (abbreviation). -/
def awardTotal (s : St) (u : String) (score : JSNum) (d : Option String)
    (today : String) : Nat :=
  baseCreditsForScore score + awardBonus s u score d today

/-- The wallet a successful award persists (abbreviation). -/
def awardWallet (s : St) (u : String) (score : JSNum) (d : Option String)
    (today : String) (now : Nat) : Wallet :=
  ⟨u, walletCredits s u + (awardTotal s u score d today : ℚ), now⟩

/-- The response body of a successful award (abbreviation). -/
def awardSummaryOf (s : St) (u : String) (score : JSNum) (d : Option String)
    (today : String) (now : Nat) : AwardSummary :=
  ⟨baseCreditsForScore score, awardBonus s u score d today,
    awardTotal s u score d today, awardWallet s u score d today now,
    awardTxns s u score d today now⟩

/-- Concrete payload fixtures and states used by the witnesses and
counterexamples. -/
def pC7X : Payload :=
  ⟨("a"), none, some ("car-petrol"), .bool true, none, .undef, .undef,
    .undef, .undef, .undef, .undef⟩

def pC7W : Payload :=
  ⟨("a"), none, some ("car-petrol"), .num (.fin 20), some ("vegan"),
    .num (.fin 0), .num (.fin 0), .undef, .undef, .undef, .undef⟩

def rC5 : FRecord :=
  ⟨0, ("a"), ("2024-01-01"), some ("car-petrol"), .num (.fin 20),
    some ("vegan"), .num (.fin 0), .num (.fin 0), .fin (342 / 100),
    .fin (289 / 100), .fin 0, .fin (631 / 100)⟩

def sC5 : St := ⟨[rC5], [], [], 1⟩

def bC5 : UpdateBody := { diet_type := some (some ("vegan")) }

def rC3 : FRecord :=
  ⟨0, ("a"), ("2024-01-02"), none, .undef, none, .undef, .undef,
    .fin 0, .fin 0, .fin 0, .fin 5⟩

def sC3 : St := ⟨[rC3], [], [], 1⟩

def pC3 : Payload :=
  ⟨("a"), some ("2024-01-02"), none, .undef, none, .undef, .undef,
    .undef, .undef, .undef, .num (.fin 5)⟩

def pC8 : Payload :=
  ⟨("a"), some ("2024-01-03"), none, .undef, none, .undef, .undef,
    .undef, .undef, .undef, .num (.fin 7)⟩

def wC9 : Wallet := ⟨("w@x"), 5, 3⟩

def rC9 : FRecord :=
  ⟨0, ("f@x"), ("2024-01-01"), none, .undef, none, .undef, .undef,
    .fin 0, .fin 0, .fin 0, .fin 4⟩

def sC9 : St := ⟨[rC9], [wC9], [], 1⟩

def rC10 : FRecord :=
  ⟨0, ("z@x"), ("2024-01-01"), none, .undef, none, .undef, .undef,
    .fin 0, .fin 0, .fin 0, .fin 0⟩

def sC10 : St := ⟨[rC10], [], [], 1⟩

/-- The record `POST /api/footprints` persists for a body (after date
defaulting and emission backfill) — abbreviation of the corresponding
step of `submitFootprint`. -/
def submitEntry (s : St) (b : Payload) (today : String) : FRecord :=
  ⟨s.nextId, b.user, resolveDate b.date today, b.vehicle_type, b.distance_daily,
    b.diet_type, b.electricity_usage, b.gas_usage,
    numOr b.travel_emissions (deriveEmissions b).travel.roundFixed2,
    numOr b.food_emissions (deriveEmissions b).food.roundFixed2,
    numOr b.energy_emissions (deriveEmissions b).energy.roundFixed2,
    numOr b.total_score (deriveEmissions b).total.roundFixed2⟩

/-- The intermediate store of the C8 witness: the empty store after the
footprint of `pC8` is saved, before the award runs. -/
def sC8mid : St :=
  { initState with
      footprints := initState.footprints ++ [submitEntry initState pC8 ("2024-01-09")],
      nextId := initState.nextId + 1 }

end Carbon

namespace Carbon

/-! ### Helper lemmas -/

theorem findWallet_set_txns (s : St) (X : List Txn) (u : String) :
    findWallet { s with txns := X } u = findWallet s u := rfl

theorem findWallet_set_fp (s : St) (f : List FRecord) (m : Nat) (u : String) :
    findWallet { s with footprints := f, nextId := m } u = findWallet s u := rfl

theorem walletCredits_set_txns (s : St) (X : List Txn) (u : String) :
    walletCredits { s with txns := X } u = walletCredits s u := rfl

theorem getPrev_set_txns (s : St) (X : List Txn) (u dl : String) :
    getPreviousScore { s with txns := X } u dl = getPreviousScore s u dl := rfl

theorem find?_user_replace (l : List Wallet) (u : String) (w : Wallet) (hw : w.user = u) :
    (l.map (fun x => if x.user = u then w else x)).find? (fun x => decide (x.user = u))
      = (l.find? (fun x => decide (x.user = u))).map (fun _ => w) := by
  induction l with
  | nil => rfl
  | cons a l ih =>
    by_cases h : a.user = u
    · simp [h, hw]
    · simp [h, ih]

theorem find?_ne_replace (l : List Wallet) (u v : String) (w : Wallet)
    (hw : w.user = u) (hv : v ≠ u) :
    (l.map (fun x => if x.user = u then w else x)).find? (fun x => decide (x.user = v))
      = l.find? (fun x => decide (x.user = v)) := by
  induction l with
  | nil => rfl
  | cons a l ih =>
    by_cases h : a.user = u
    · have h1 : ¬(w.user = v) := by rw [hw]; exact fun hh => hv hh.symm
      have h2 : ¬(a.user = v) := by rw [h]; exact fun hh => hv hh.symm
      rw [List.map_cons, if_pos h, List.find?_cons_of_neg _ (by simp [h1]),
        List.find?_cons_of_neg _ (by simp [h2])]
      exact ih
    · by_cases h3 : a.user = v
      · rw [List.map_cons, if_neg h, List.find?_cons_of_pos _ (by simp [h3]),
          List.find?_cons_of_pos _ (by simp [h3])]
      · rw [List.map_cons, if_neg h, List.find?_cons_of_neg _ (by simp [h3]),
          List.find?_cons_of_neg _ (by simp [h3])]
        exact ih

theorem findWallet_setWallet_self (s : St) (u : String) (w : Wallet) (hw : w.user = u) :
    findWallet (setWallet s u w) u = some w := by
  unfold setWallet
  by_cases h : (findWallet s u).isSome
  · rw [if_pos h]
    show (s.wallets.map (fun x => if x.user = u then w else x)).find?
        (fun x => decide (x.user = u)) = some w
    rw [find?_user_replace _ _ _ hw]
    obtain ⟨a, ha⟩ := Option.isSome_iff_exists.mp h
    show (s.wallets.find? (fun x => decide (x.user = u))).map (fun _ => w) = some w
    have : s.wallets.find? (fun x => decide (x.user = u)) = some a := ha
    rw [this]
    rfl
  · rw [if_neg h]
    have hnone : s.wallets.find? (fun x => decide (x.user = u)) = none :=
      Option.not_isSome_iff_eq_none.mp h
    show (s.wallets ++ [w]).find? (fun x => decide (x.user = u)) = some w
    rw [List.find?_append, hnone]
    simp [hw]

theorem findWallet_setWallet_ne (s : St) (u v : String) (w : Wallet)
    (hw : w.user = u) (hv : v ≠ u) :
    findWallet (setWallet s u w) v = findWallet s v := by
  unfold setWallet
  by_cases h : (findWallet s u).isSome
  · rw [if_pos h]
    exact find?_ne_replace _ _ _ _ hw hv
  · rw [if_neg h]
    show (s.wallets ++ [w]).find? (fun x => decide (x.user = v)) = findWallet s v
    rw [List.find?_append]
    have h1 : ¬(w.user = v) := by rw [hw]; exact fun hh => hv hh.symm
    simp [findWallet, h1]

theorem setWallet_txns (s : St) (u : String) (w : Wallet) :
    (setWallet s u w).txns = s.txns := by
  unfold setWallet; split <;> rfl

theorem setWallet_footprints (s : St) (u : String) (w : Wallet) :
    (setWallet s u w).footprints = s.footprints := by
  unfold setWallet; split <;> rfl

theorem setWallet_nextId (s : St) (u : String) (w : Wallet) :
    (setWallet s u w).nextId = s.nextId := by
  unfold setWallet; split <;> rfl

theorem award_result_eq (s : St) (u : String) (score : JSNum) (d : Option String)
    (today : String) (now : Nat) (h : ¬(u = ("") ∨ score.isNaN = true)) :
    awardCreditsForFootprint s u score d today now
      = (setWallet { s with txns := s.txns ++ awardTxns s u score d today now } u
          (awardWallet s u score d today now),
        .ok (awardSummaryOf s u score d today now)) := by
  unfold awardCreditsForFootprint
  rw [if_neg h]
  cases hw : findWallet s u with
  | none =>
      simp only [awardTxns, awardBonus, awardPrev, awardWallet, awardSummaryOf,
        awardTotal, walletCredits, findWallet_set_txns, getPrev_set_txns, hw,
        Option.map_none, Option.getD_none, Option.getD]
      push_cast
      norm_num
  | some w =>
      have hu : w.user = u := by
        have := List.find?_some hw
        simpa using this
      simp only [awardTxns, awardBonus, awardPrev, awardWallet, awardSummaryOf,
        awardTotal, walletCredits, findWallet_set_txns, getPrev_set_txns, hw,
        Option.map_some, Option.getD_some]
      push_cast
      cases w
      simp only [Wallet.mk.injEq] at hu ⊢
      subst hu
      norm_num

/-! ### Claim theorems -/

/-- Claim C2: for every finite numeric score and optional (finite)
previous score, the base credits are 5 below 10, 3 from 10 to 20 (both
boundaries in the middle tier) and 1 above 20, and the bonus is 2 exactly
when a previous score exists and the score strictly improves on it. -/
theorem c2_credit_policy (q : ℚ) (prev : Option ℚ) :
    baseCreditsForScore (.fin q) = (if q < 10 then 5 else if 10 ≤ q ∧ q ≤ 20 then 3 else 1)
    ∧ bonusCredits (.fin q) (prev.map (fun p => JSNum.fin p))
      = (match prev with
         | some p => if q < p then 2 else 0
         | none => 0) := by
  constructor
  · by_cases h1 : q < 10
    · simp [baseCreditsForScore, JSNum.lt, h1]
    · by_cases h2 : q ≤ 20
      · have h10 : 10 ≤ q := le_of_not_lt h1
        have h20 : ¬(20 < q) := not_lt.mpr h2
        simp [baseCreditsForScore, JSNum.lt, JSNum.le, JSNum.isNaN, h1, h2, h10, h20]
      · have h20 : (20 : ℚ) < q := not_le.mp h2
        simp [baseCreditsForScore, JSNum.lt, JSNum.le, JSNum.isNaN, h1, h2, h20]
  · cases prev with
    | none => rfl
    | some p => by_cases h : q < p <;> simp [bonusCredits, JSNum.lt, h]

/-- Claim C4, counterexample: the claim says the award orchestrator fails
for every non-finite score, +Infinity included; but the code only rejects
NaN (`Number.isNaN`), so an award with score +Infinity succeeds. -/
theorem c4_counterexample :
    JSNum.isFinite .posInf = false
    ∧ exceptOk (awardCreditsForFootprint initState ("a") .posInf none
        ("2024-01-01") 0).2 = true := by
  exact ⟨rfl, rfl⟩

/-- Claim C4 as amended: the award orchestrator fails with
`InvalidRequest` exactly for an absent (empty) user or a NaN score, and
succeeds — persisting nothing else on failure — for every present user
with any non-NaN numeric score, infinities included. -/
theorem c4_award_validation (s : St) (user : String) (score : JSNum)
    (d : Option String) (today : String) (now : Nat) :
    ((user = ("") ∨ score.isNaN = true) →
      awardCreditsForFootprint s user score d today now = (s, .error .invalidRequest))
    ∧ (user ≠ ("") → score.isNaN = false →
      exceptOk (awardCreditsForFootprint s user score d today now).2 = true) := by
  constructor
  · intro h
    unfold awardCreditsForFootprint
    rw [if_pos h]
  · intro h1 h2
    have h : ¬(user = ("") ∨ score.isNaN = true) := by
      intro hc
      rcases hc with hc | hc
      · exact h1 hc
      · rw [h2] at hc; exact Bool.false_ne_true hc
    unfold awardCreditsForFootprint
    rw [if_neg h]
    rfl

/-- Witness for `c4_award_validation` at a concrete input. -/
theorem c4_award_validation_witness :
    exceptOk (awardCreditsForFootprint initState ("a") (.fin 5) none
        ("2024-01-01") 0).2 = true :=
  (c4_award_validation initState ("a") (.fin 5) none ("2024-01-01") 0).2
    (by decide) rfl

/-- Claim C6, counterexample: the claim says read-only wallet lookup does
not create a wallet for a user who has none; but `GET
/api/credits/wallet/:user` calls `ensureWallet`, which inserts a
zero-credit wallet. -/
theorem c6_counterexample :
    (getWalletOp initState ("u") 0).1.wallets ≠ initState.wallets
    ∧ findWallet (getWalletOp initState ("u") 0).1 ("u") = some ⟨("u"), 0, 0⟩ := by
  constructor
  · intro h
    exact List.cons_ne_nil _ _ (h : _)
  · rfl

/-- Claim C6 as amended: the wallet lookup is find-or-create — for a user
with a wallet it returns it and leaves the store unchanged, for a user
without one it inserts a zero-credit wallet (and changes nothing else);
wallet balances themselves are still mutated only by the award
operation. -/
theorem c6_wallet_lookup (s : St) (u : String) (now : Nat) :
    (u ≠ ("") → ∀ w, findWallet s u = some w → getWalletOp s u now = (s, .ok w))
    ∧ (u ≠ ("") → findWallet s u = none →
        getWalletOp s u now
          = ({ s with wallets := s.wallets ++ [⟨u, 0, now⟩] }, .ok ⟨u, 0, now⟩))
    ∧ (u = ("") → getWalletOp s u now = (s, .error .invalidRequest)) := by
  refine ⟨?_, ?_, ?_⟩
  · intro hu w hw
    unfold getWalletOp
    rw [if_neg hu, hw]
  · intro hu hw
    unfold getWalletOp
    rw [if_neg hu, hw]
  · intro hu
    unfold getWalletOp
    rw [if_pos hu]

/-- Witness for `c6_wallet_lookup` at a concrete input. -/
theorem c6_wallet_lookup_witness :
    getWalletOp initState ("u") 7
      = ({ initState with wallets := initState.wallets ++ [⟨("u"), 0, 7⟩] },
         .ok ⟨("u"), 0, 7⟩) :=
  (c6_wallet_lookup initState ("u") 7).2.1 (by decide) rfl

/-- Claim C7, counterexample: the claim says every missing or non-numeric
numeric input is treated as 0; but `payload.distance_daily || 0` keeps a
truthy non-numeric value, and JS multiplication then coerces it with
`ToNumber` — a boolean `true` distance behaves as 1, not 0, so the code's
travel is 0.171 where the claim's formulas give 0. -/
theorem c7_counterexample :
    (deriveEmissions pC7X).travel = .fin (171 / 1000)
    ∧ (deriveEmissionsClaimC7 pC7X).travel = .fin 0 := by
  constructor
  · show JSNum.mul (.fin (vehicleFactor (some ("car-petrol"))))
        (JSVal.orZeroNum (.bool true)) = .fin (171 / 1000)
    norm_num [vehicleFactor, VEHICLE_EMISSIONS, JSVal.orZeroNum, JSVal.truthy,
      JSVal.toNumber, JSNum.mul, List.lookup]
  · show JSNum.fin (vehicleFactor (some ("car-petrol")) * jsvalClaimZero (.bool true))
        = .fin 0
    norm_num [vehicleFactor, VEHICLE_EMISSIONS, jsvalClaimZero, List.lookup]

/-- A field that is absent, null, NaN or a finite number is coerced by
`|| 0` followed by `ToNumber` to exactly the claim's "treated as 0"
value. -/
theorem orZeroNum_of_finOrMissing (v : JSVal) (h : finOrMissing v = true) :
    JSVal.orZeroNum v = .fin (jsvalClaimZero v) := by
  cases v with
  | undef => rfl
  | null => rfl
  | bool b => simp [finOrMissing] at h
  | num n =>
    cases n with
    | nan => rfl
    | posInf => simp [finOrMissing] at h
    | negInf => simp [finOrMissing] at h
    | fin q =>
      by_cases hq : q = 0 <;>
        simp [JSVal.orZeroNum, JSVal.truthy, JSNum.truthy, JSVal.toNumber,
          jsvalClaimZero, hq]

/-- Claim C7 as amended: on every input whose numeric fields are each
missing, null, NaN or a finite number, `deriveEmissions` computes exactly
the claimed formulas with those inputs treated as 0 (and, being a total
function, it never fails); a truthy non-numeric (boolean) input is
instead coerced by JS arithmetic, `true` behaving as 1. -/
theorem c7_emissions (p : Payload) :
    (finOrMissing p.distance_daily = true → finOrMissing p.electricity_usage = true →
      finOrMissing p.gas_usage = true → deriveEmissions p = deriveEmissionsClaimC7 p)
    ∧ (∀ b : Bool, p.distance_daily = .bool b →
        (deriveEmissions p).travel
          = JSNum.mul (.fin (vehicleFactor p.vehicle_type)) (.fin (if b then 1 else 0))) := by
  constructor
  · intro h1 h2 h3
    unfold deriveEmissions deriveEmissionsClaimC7
    rw [orZeroNum_of_finOrMissing _ h1, orZeroNum_of_finOrMissing _ h2,
      orZeroNum_of_finOrMissing _ h3]
    simp [JSNum.mul, JSNum.add, JSNum.div, Emissions.mk.injEq]
  · intro b hb
    unfold deriveEmissions
    rw [hb]
    cases b <;> rfl

/-- Witness for `c7_emissions` at a concrete input (the end-to-end
example of the spec: car-petrol, 20 km, vegan, zero usage). -/
theorem c7_emissions_witness :
    deriveEmissions pC7W = deriveEmissionsClaimC7 pC7W :=
  (c7_emissions pC7W).1 (by decide) (by decide) (by decide)

/-- Claim C5, counterexample: the claim says update recomputes the four
derived fields from the merged field set; but the code computes
`deriveEmissions(updates)` from the request body alone, so updating only
the diet of a record that has a vehicle and a distance zeroes the stored
travel emissions instead of recomputing 3.42 from the merged fields. -/
theorem c5_counterexample :
    ((updateFootprint sC5 0 bC5).2.map FRecord.travel_emissions) = .ok (.fin 0)
    ∧ ((updateFootprintMerged sC5 0 bC5).2.map FRecord.travel_emissions)
        = .ok (.fin (342 / 100)) := by
  constructor
  · show Except.map FRecord.travel_emissions
        (updateFootprint sC5 0 bC5).2 = .ok (.fin 0)
    norm_num [updateFootprint, sC5, rC5, bC5, UpdateBody.toPayload, deriveEmissions,
      applyUpdates, vehicleFactor, dietFactor, VEHICLE_EMISSIONS, DIET_EMISSIONS,
      JSVal.orZeroNum, JSVal.truthy, JSVal.toNumber, JSNum.truthy, JSNum.mul,
      JSNum.add, JSNum.div, JSNum.isFinite, JSNum.roundFixed2, qRound2, List.lookup,
      List.find?, Except.map, ELECTRICITY_FACTOR, GAS_FACTOR, Option.join,
      Int.floor_eq_iff]
  · norm_num [updateFootprintMerged, sC5, rC5, bC5, deriveEmissions,
      applyUpdates, vehicleFactor, dietFactor, VEHICLE_EMISSIONS, DIET_EMISSIONS,
      JSVal.orZeroNum, JSVal.truthy, JSVal.toNumber, JSNum.truthy, JSNum.mul,
      JSNum.add, JSNum.div, JSNum.isFinite, JSNum.roundFixed2, qRound2, List.lookup,
      List.find?, Except.map, ELECTRICITY_FACTOR, GAS_FACTOR, Option.join,
      Int.floor_eq_iff]

/-- Claim C5 as amended: the update recomputes the four derived emission
fields from the supplied partial fields ALONE (fields absent from the
body are seen as undefined by the recomputation), installs each when
finite, persists the body's raw fields merged into the stored record, and
fails with `NotFound` when no record has the identifier. -/
theorem c5_update (s : St) (id : Nat) (b : UpdateBody) :
    (s.footprints.find? (fun r => decide (r.id = id)) = none →
      updateFootprint s id b = (s, .error .notFound))
    ∧ (∀ r, s.footprints.find? (fun r2 => decide (r2.id = id)) = some r →
        updateFootprint s id b
          = ({ s with
                footprints :=
                  replaceById s.footprints id
                    (applyUpdates r b (deriveEmissions b.toPayload)) },
             .ok (applyUpdates r b (deriveEmissions b.toPayload)))) := by
  constructor
  · intro h
    unfold updateFootprint
    rw [h]
  · intro r h
    unfold updateFootprint
    rw [h]

/-- Witness for `c5_update` at a concrete input. -/
theorem c5_update_witness :
    updateFootprint sC5 0 bC5
      = ({ sC5 with
            footprints :=
              replaceById sC5.footprints 0
                (applyUpdates rC5 bC5 (deriveEmissions bC5.toPayload)) },
         .ok (applyUpdates rC5 bC5 (deriveEmissions bC5.toPayload))) :=
  (c5_update sC5 0 bC5).2 rC5 rfl

/-! ### Reconciliation invariant (claim C1) -/

theorem submitFootprint_eq (s : St) (b : Payload) (today : String) (now : Nat) :
    submitFootprint s b today now =
      if b.user = ("") then (s, .error .invalidRequest)
      else if (s.footprints.find? (fun r => decide (r.user = b.user)
          && decide (r.date = resolveDate b.date today))).isSome then
        (s, .error .duplicateSubmission)
      else
        awardCreditsForFootprint
          { s with
              footprints := s.footprints ++ [submitEntry s b today],
              nextId := s.nextId + 1 }
          b.user (submitEntry s b today).total_score
          (some (resolveDate b.date today)) today now := rfl

theorem txnSum_append_state (s : St) (T : List Txn) (v : String) :
    txnSum { s with txns := s.txns ++ T } v
      = txnSum s v + ((T.filter (fun t => decide (t.user = v))).map Txn.amount).sum := by
  simp [txnSum, List.filter_append]

theorem awardTxns_sum_self (s : St) (u : String) (score : JSNum) (d : Option String)
    (today : String) (now : Nat) :
    (((awardTxns s u score d today now).filter
        (fun t => decide (t.user = u))).map Txn.amount).sum
      = (awardTotal s u score d today : ℚ) := by
  unfold awardTxns awardTotal
  by_cases hb : awardBonus s u score d today > 0
  · simp [hb]
  · have hz : awardBonus s u score d today = 0 := Nat.eq_zero_of_not_pos hb
    simp [hb, hz]

theorem awardTxns_filter_other (s : St) (u : String) (score : JSNum) (d : Option String)
    (today : String) (now : Nat) (v : String) (hv : v ≠ u) :
    (awardTxns s u score d today now).filter (fun t => decide (t.user = v)) = [] := by
  have hne : ¬(u = v) := fun hh => hv hh.symm
  unfold awardTxns
  by_cases hb : awardBonus s u score d today > 0 <;> simp [hb, hne]

theorem award_preserves_reconciled (s : St) (u : String) (score : JSNum)
    (d : Option String) (today : String) (now : Nat) (hr : reconciled s) :
    reconciled (awardCreditsForFootprint s u score d today now).1 := by
  by_cases h : (u = ("") ∨ score.isNaN = true)
  · unfold awardCreditsForFootprint
    rw [if_pos h]
    exact hr
  · rw [award_result_eq _ _ _ _ _ _ h]
    intro v
    by_cases hv : v = u
    · subst hv
      have hself : findWallet (setWallet
          { s with txns := s.txns ++ awardTxns s v score d today now } v
          (awardWallet s v score d today now)) v
            = some (awardWallet s v score d today now) :=
        findWallet_setWallet_self _ _ _ rfl
      rw [walletCredits, hself]
      rw [show txnSum (setWallet { s with txns := s.txns ++ awardTxns s v score d today now } v
            (awardWallet s v score d today now)) v
          = txnSum { s with txns := s.txns ++ awardTxns s v score d today now } v from by
        unfold txnSum
        rw [setWallet_txns]]
      rw [txnSum_append_state, awardTxns_sum_self]
      show (awardWallet s v score d today now).credits = _
      unfold awardWallet
      rw [hr v]
    · have hne : findWallet (setWallet
          { s with txns := s.txns ++ awardTxns s u score d today now } u
          (awardWallet s u score d today now)) v
            = findWallet s v := by
        rw [findWallet_setWallet_ne
          { s with txns := s.txns ++ awardTxns s u score d today now } u v
          (awardWallet s u score d today now) rfl hv]
        rfl
      rw [walletCredits, hne]
      rw [show txnSum (setWallet { s with txns := s.txns ++ awardTxns s u score d today now } u
            (awardWallet s u score d today now)) v
          = txnSum { s with txns := s.txns ++ awardTxns s u score d today now } v from by
        unfold txnSum
        rw [setWallet_txns]]
      rw [txnSum_append_state, awardTxns_filter_other _ _ _ _ _ _ _ hv]
      simp only [List.map_nil, List.sum_nil, add_zero]
      exact hr v

theorem submit_preserves_reconciled (s : St) (b : Payload) (today : String)
    (now : Nat) (hr : reconciled s) :
    reconciled (submitFootprint s b today now).1 := by
  rw [submitFootprint_eq]
  split_ifs with h1 h2
  · exact hr
  · exact hr
  · exact award_preserves_reconciled _ _ _ _ _ _ hr

theorem manualEarn_preserves_reconciled (s : St) (u : String) (sc : JSVal)
    (d : Option String) (today : String) (now : Nat) (hr : reconciled s) :
    reconciled (manualEarn s u sc d today now).1 := by
  unfold manualEarn
  split
  · exact hr
  · exact award_preserves_reconciled _ _ _ _ _ _ hr

theorem runOps_preserves_reconciled (l : List Op) :
    ∀ s : St, reconciled s → reconciled (runOps s l) := by
  induction l with
  | nil => intro s hr; exact hr
  | cons op l ih =>
    intro s hr
    show reconciled (runOps (stepOp s op) l)
    refine ih _ ?_
    cases op with
    | submit b t n => exact submit_preserves_reconciled _ _ _ _ hr
    | earn u sc d t n => exact manualEarn_preserves_reconciled _ _ _ _ _ _ hr

/-- Claim C1: from the empty store, after any sequence of credit-award
operations (footprint submissions or manual awards, successful or not),
every user's wallet balance equals the sum of that user's transaction
amounts; and each successful award appends transactions and increments
the balance by exactly the same total (base + bonus). -/
theorem c1_reconciliation :
    (∀ ops : List Op, reconciled (runOps initState ops))
    ∧ (∀ (s : St) (user : String) (score : JSNum) (d : Option String)
        (today : String) (now : Nat) (s2 : St) (sum : AwardSummary),
        awardCreditsForFootprint s user score d today now = (s2, .ok sum) →
        walletCredits s2 user
            = walletCredits s user + ((sum.baseCredits : ℚ) + (sum.bonusCredits : ℚ))
          ∧ txnSum s2 user
            = txnSum s user + ((sum.baseCredits : ℚ) + (sum.bonusCredits : ℚ))) := by
  constructor
  · intro ops
    exact runOps_preserves_reconciled ops initState (fun u => rfl)
  · intro s user score d today now s2 sum h
    by_cases hc : (user = ("") ∨ score.isNaN = true)
    · rw [show awardCreditsForFootprint s user score d today now
          = (s, .error .invalidRequest) from by
        unfold awardCreditsForFootprint; rw [if_pos hc]] at h
      exact absurd (congrArg Prod.snd h) (by simp)
    · rw [award_result_eq _ _ _ _ _ _ hc] at h
      have hs2 : s2 = setWallet
          { s with txns := s.txns ++ awardTxns s user score d today now } user
          (awardWallet s user score d today now) := (congrArg Prod.fst h).symm
      have hsum : sum = awardSummaryOf s user score d today now := by
        have := congrArg Prod.snd h
        simpa using this.symm
      subst hs2
      subst hsum
      constructor
      · have hself : findWallet (setWallet
            { s with txns := s.txns ++ awardTxns s user score d today now } user
            (awardWallet s user score d today now)) user
              = some (awardWallet s user score d today now) :=
          findWallet_setWallet_self _ _ _ rfl
        rw [walletCredits, hself]
        show (awardWallet s user score d today now).credits = _
        unfold awardWallet awardSummaryOf awardTotal
        push_cast
        ring
      · rw [show txnSum (setWallet
              { s with txns := s.txns ++ awardTxns s user score d today now } user
              (awardWallet s user score d today now)) user
            = txnSum { s with txns := s.txns ++ awardTxns s user score d today now } user
            from by unfold txnSum; rw [setWallet_txns]]
        rw [txnSum_append_state, awardTxns_sum_self]
        unfold awardSummaryOf awardTotal
        push_cast
        ring

/-- Witness for `c1_reconciliation` at a concrete successful award. -/
theorem c1_reconciliation_witness :
    walletCredits (setWallet
        { initState with
            txns := initState.txns ++ awardTxns initState ("a") (.fin 5) none ("2024-01-01") 0 }
        ("a") (awardWallet initState ("a") (.fin 5) none ("2024-01-01") 0)) ("a")
      = walletCredits initState ("a")
        + (((awardSummaryOf initState ("a") (.fin 5) none ("2024-01-01") 0).baseCredits : ℚ)
          + ((awardSummaryOf initState ("a") (.fin 5) none ("2024-01-01") 0).bonusCredits : ℚ))
    ∧ txnSum (setWallet
        { initState with
            txns := initState.txns ++ awardTxns initState ("a") (.fin 5) none ("2024-01-01") 0 }
        ("a") (awardWallet initState ("a") (.fin 5) none ("2024-01-01") 0)) ("a")
      = txnSum initState ("a")
        + (((awardSummaryOf initState ("a") (.fin 5) none ("2024-01-01") 0).baseCredits : ℚ)
          + ((awardSummaryOf initState ("a") (.fin 5) none ("2024-01-01") 0).bonusCredits : ℚ)) :=
  c1_reconciliation.2 initState ("a") (.fin 5) none ("2024-01-01") 0 _ _
    (award_result_eq initState ("a") (.fin 5) none ("2024-01-01") 0 (by decide))

/-! ### Per-day uniqueness (claim C3) -/

theorem award_footprints (s : St) (u : String) (score : JSNum) (d : Option String)
    (today : String) (now : Nat) :
    (awardCreditsForFootprint s u score d today now).1.footprints = s.footprints := by
  by_cases h : (u = ("") ∨ score.isNaN = true)
  · unfold awardCreditsForFootprint
    rw [if_pos h]
  · rw [award_result_eq _ _ _ _ _ _ h]
    show (setWallet _ _ _).footprints = _
    rw [setWallet_footprints]

theorem submit_preserves_unique (s : St) (b : Payload) (today : String) (now : Nat)
    (hu : uniquePairs s) :
    uniquePairs (submitFootprint s b today now).1 := by
  rw [submitFootprint_eq]
  split_ifs with h1 h2
  · exact hu
  · exact hu
  · intro r1 hr1 r2 hr2 huser hdate
    rw [award_footprints] at hr1 hr2
    have hnone := List.find?_eq_none.mp (Option.not_isSome_iff_eq_none.mp h2)
    simp only [List.mem_append, List.mem_singleton] at hr1 hr2
    rcases hr1 with hr1 | hr1 <;> rcases hr2 with hr2 | hr2
    · exact hu r1 hr1 r2 hr2 huser hdate
    · exfalso
      have hpred := hnone r1 hr1
      have hu1 : r1.user = b.user := by rw [huser, hr2]; rfl
      have hd1 : r1.date = resolveDate b.date today := by rw [hdate, hr2]; rfl
      exact absurd (by simp [hu1, hd1]) hpred
    · exfalso
      have hpred := hnone r2 hr2
      have hu1 : r2.user = b.user := by rw [← huser, hr1]; rfl
      have hd1 : r2.date = resolveDate b.date today := by rw [← hdate, hr1]; rfl
      exact absurd (by simp [hu1, hd1]) hpred
    · rw [hr1, hr2]

theorem runSubmits_preserves_unique (l : List (Payload × String × Nat)) :
    ∀ s : St, uniquePairs s → uniquePairs (runSubmits s l) := by
  induction l with
  | nil => intro s hu; exact hu
  | cons x l ih =>
    intro s hu
    show uniquePairs (runSubmits (submitFootprint s x.1 x.2.1 x.2.2).1 l)
    exact ih _ (submit_preserves_unique _ _ _ _ hu)

/-- Claim C3: a submission for an already-submitted (user, date) pair
fails with `DuplicateSubmission` and persists nothing; a missing date
defaults to the current day; and after any sequence of submissions from
the empty store at most one record exists per (user, date). -/
theorem c3_duplicate_protection :
    (∀ l : List (Payload × String × Nat), uniquePairs (runSubmits initState l))
    ∧ (∀ (s : St) (body : Payload) (today : String) (now : Nat),
        body.user ≠ ("") →
        (∃ r ∈ s.footprints, r.user = body.user ∧ r.date = resolveDate body.date today) →
        submitFootprint s body today now = (s, .error .duplicateSubmission))
    ∧ (∀ (s : St) (body : Payload) (today : String) (now : Nat) (s2 : St)
        (sum : AwardSummary), body.date = none →
        submitFootprint s body today now = (s2, .ok sum) →
        ∃ e ∈ s2.footprints, e.user = body.user ∧ e.date = today) := by
  refine ⟨?_, ?_, ?_⟩
  · intro l
    refine runSubmits_preserves_unique l initState ?_
    intro r1 hr1
    exact absurd hr1 (List.not_mem_nil _)
  · intro s body today now huser hex
    rw [submitFootprint_eq, if_neg huser, if_pos]
    rcases hex with ⟨r, hr, hru, hrd⟩
    exact List.find?_isSome.mpr ⟨r, hr, by simp [hru, hrd]⟩
  · intro s body today now s2 sum hdate h
    by_cases huser : body.user = ("")
    · rw [submitFootprint_eq, if_pos huser] at h
      exact absurd (congrArg Prod.snd h) (by simp)
    · by_cases hdup : (s.footprints.find? (fun r => decide (r.user = body.user)
          && decide (r.date = resolveDate body.date today))).isSome
      · rw [submitFootprint_eq, if_neg huser, if_pos hdup] at h
        exact absurd (congrArg Prod.snd h) (by simp)
      · rw [submitFootprint_eq, if_neg huser, if_neg hdup] at h
        have hs2 : s2 = (awardCreditsForFootprint
            { s with
                footprints := s.footprints ++ [submitEntry s body today],
                nextId := s.nextId + 1 }
            body.user (submitEntry s body today).total_score
            (some (resolveDate body.date today)) today now).1 :=
          (congrArg Prod.fst h).symm
        refine ⟨submitEntry s body today, ?_, rfl, ?_⟩
        · rw [hs2, award_footprints]
          simp
        · show resolveDate body.date today = today
          rw [hdate]
          rfl

/-- Witness for `c3_duplicate_protection` at a concrete duplicate
submission. -/
theorem c3_duplicate_protection_witness :
    submitFootprint sC3 pC3 ("2024-01-09") 0 = (sC3, .error .duplicateSubmission) :=
  c3_duplicate_protection.2.1 sC3 pC3 ("2024-01-09") 0 (by decide)
    ⟨rC3, by simp [sC3], by decide⟩

/-! ### Submit-award versus manual award (claim C8) -/

theorem resolveDate_resolve (d : Option String) (t : String) :
    resolveDate (some (resolveDate d t)) t = resolveDate d t := by
  cases d with
  | none => by_cases h : t = ("") <;> simp [resolveDate, h]
  | some x =>
    by_cases h : x = ("")
    · by_cases h2 : t = ("") <;> simp [resolveDate, h, h2]
    · simp [resolveDate, h]

theorem getPrev_insert (s : St) (e : FRecord) (m : Nat) (u dl : String)
    (hd : ¬(e.date < dl)) :
    getPreviousScore { s with footprints := s.footprints ++ [e], nextId := m } u dl
      = getPreviousScore s u dl := by
  unfold getPreviousScore
  have hfp : ({ s with footprints := s.footprints ++ [e], nextId := m } : St).footprints
      = s.footprints ++ [e] := rfl
  rw [hfp, List.filter_append]
  have hpe : (decide (e.user = u) && decide (e.date < dl)) = false := by
    rw [decide_eq_false hd, Bool.and_false]
  have he : [e].filter (fun r => decide (r.user = u) && decide (r.date < dl)) = [] := by
    refine List.filter_eq_nil_iff.mpr ?_
    intro a ha hc
    rw [List.mem_singleton] at ha
    subst ha
    rw [hpe] at hc
    exact Bool.false_ne_true hc
  rw [he, List.append_nil]

theorem setWallet_wallets (s : St) (u : String) (w : Wallet) :
    (setWallet s u w).wallets
      = if (s.wallets.find? (fun x => decide (x.user = u))).isSome
        then s.wallets.map (fun x => if x.user = u then w else x)
        else s.wallets ++ [w] := by
  unfold setWallet findWallet
  split
  next h => rfl
  next h => rfl

theorem award_state_shift (s : St) (f : List FRecord) (m : Nat) (u : String)
    (score : JSNum) (d : Option String) (today : String) (now : Nat)
    (hprev : getPreviousScore { s with footprints := f, nextId := m } u
        (resolveDate d today)
      = getPreviousScore s u (resolveDate d today)) :
    (awardCreditsForFootprint { s with footprints := f, nextId := m } u score d
        today now).1.wallets
      = (awardCreditsForFootprint s u score d today now).1.wallets
    ∧ (awardCreditsForFootprint { s with footprints := f, nextId := m } u score d
        today now).1.txns
      = (awardCreditsForFootprint s u score d today now).1.txns
    ∧ (awardCreditsForFootprint { s with footprints := f, nextId := m } u score d
        today now).2
      = (awardCreditsForFootprint s u score d today now).2 := by
  by_cases h : (u = ("") ∨ score.isNaN = true)
  · unfold awardCreditsForFootprint
    rw [if_pos h, if_pos h]
    exact ⟨rfl, rfl, rfl⟩
  · rw [award_result_eq _ _ _ _ _ _ h, award_result_eq _ _ _ _ _ _ h]
    have hPrev2 : awardPrev { s with footprints := f, nextId := m } u d today
        = awardPrev s u d today := hprev
    have hTxns : awardTxns { s with footprints := f, nextId := m } u score d today now
        = awardTxns s u score d today now := by
      unfold awardTxns awardBonus
      rw [hPrev2]
    have hW : awardWallet { s with footprints := f, nextId := m } u score d today now
        = awardWallet s u score d today now := by
      unfold awardWallet awardTotal awardBonus
      rw [hPrev2]
      rfl
    have hSum : awardSummaryOf { s with footprints := f, nextId := m } u score d today now
        = awardSummaryOf s u score d today now := by
      unfold awardSummaryOf awardTotal awardBonus
      rw [hPrev2, hTxns, hW]
    refine ⟨?_, ?_, ?_⟩
    · show (setWallet _ _ _).wallets = (setWallet _ _ _).wallets
      rw [setWallet_wallets, setWallet_wallets, hTxns, hW]
    · show (setWallet _ _ _).txns = (setWallet _ _ _).txns
      rw [setWallet_txns, setWallet_txns, hTxns]
    · show Except.ok _ = Except.ok _
      rw [hSum]

/-- Claim C8: for identical inputs (user, score, date), the award
performed as a side effect of a successful footprint submission and the
award performed by the standalone `POST /api/credits/earn` endpoint
produce identical ledger effects — the same response summary, the same
final wallet collection and the same final transaction collection (the
footprint inserted just before the award has the award's own date, so it
never changes the strictly-earlier previous-score lookup). -/
theorem c8_award_path_equivalence (s : St) (body : Payload) (today : String)
    (now : Nat) (s1 : St) (sum : AwardSummary)
    (h : submitFootprint s body today now = (s1, .ok sum)) :
    (manualEarn s body.user
        (.num (numOr body.total_score (deriveEmissions body).total.roundFixed2))
        (some (resolveDate body.date today)) today now).2 = .ok sum
    ∧ (manualEarn s body.user
        (.num (numOr body.total_score (deriveEmissions body).total.roundFixed2))
        (some (resolveDate body.date today)) today now).1.wallets = s1.wallets
    ∧ (manualEarn s body.user
        (.num (numOr body.total_score (deriveEmissions body).total.roundFixed2))
        (some (resolveDate body.date today)) today now).1.txns = s1.txns := by
  by_cases huser : body.user = ("")
  · rw [submitFootprint_eq, if_pos huser] at h
    exact absurd (congrArg Prod.snd h) (by simp)
  · by_cases hdup : (s.footprints.find? (fun r => decide (r.user = body.user)
        && decide (r.date = resolveDate body.date today))).isSome
    · rw [submitFootprint_eq, if_neg huser, if_pos hdup] at h
      exact absurd (congrArg Prod.snd h) (by simp)
    · rw [submitFootprint_eq, if_neg huser, if_neg hdup] at h
      have hprev : getPreviousScore
          { s with
              footprints := s.footprints ++ [submitEntry s body today],
              nextId := s.nextId + 1 }
          body.user (resolveDate (some (resolveDate body.date today)) today)
          = getPreviousScore s body.user
              (resolveDate (some (resolveDate body.date today)) today) := by
        rw [resolveDate_resolve]
        exact getPrev_insert s (submitEntry s body today) (s.nextId + 1) body.user
          (resolveDate body.date today) (lt_irrefl _)
      have hshift := award_state_shift s (s.footprints ++ [submitEntry s body today])
        (s.nextId + 1) body.user ((submitEntry s body today).total_score)
        (some (resolveDate body.date today)) today now hprev
      have hme : ¬(body.user = ("") ∨ (JSVal.num (numOr body.total_score
          (deriveEmissions body).total.roundFixed2)).isNumber = false) := by
        intro hc
        rcases hc with hc | hc
        · exact huser hc
        · exact absurd hc (by simp [JSVal.isNumber])
      have hearn : manualEarn s body.user
          (.num (numOr body.total_score (deriveEmissions body).total.roundFixed2))
          (some (resolveDate body.date today)) today now
          = awardCreditsForFootprint s body.user
              ((submitEntry s body today).total_score)
              (some (resolveDate body.date today)) today now := by
        unfold manualEarn
        rw [if_neg hme]
        rfl
      have hs1 : s1 = (awardCreditsForFootprint
          { s with
              footprints := s.footprints ++ [submitEntry s body today],
              nextId := s.nextId + 1 }
          body.user ((submitEntry s body today).total_score)
          (some (resolveDate body.date today)) today now).1 :=
        (congrArg Prod.fst h).symm
      have hsum2 := congrArg Prod.snd h
      refine ⟨?_, ?_, ?_⟩
      · rw [hearn, ← hshift.2.2]
        exact hsum2
      · rw [hearn, ← hshift.1, hs1]
      · rw [hearn, ← hshift.2.1, hs1]

/-- Witness for `c8_award_path_equivalence` at a concrete successful
submission. -/
theorem c8_award_path_equivalence_witness :
    (manualEarn initState pC8.user
        (.num (numOr pC8.total_score (deriveEmissions pC8).total.roundFixed2))
        (some (resolveDate pC8.date ("2024-01-09"))) ("2024-01-09") 3).2
      = .ok (awardSummaryOf sC8mid pC8.user
          ((submitEntry initState pC8 ("2024-01-09")).total_score)
          (some (resolveDate pC8.date ("2024-01-09"))) ("2024-01-09") 3)
    ∧ (manualEarn initState pC8.user
        (.num (numOr pC8.total_score (deriveEmissions pC8).total.roundFixed2))
        (some (resolveDate pC8.date ("2024-01-09"))) ("2024-01-09") 3).1.wallets
      = (submitFootprint initState pC8 ("2024-01-09") 3).1.wallets
    ∧ (manualEarn initState pC8.user
        (.num (numOr pC8.total_score (deriveEmissions pC8).total.roundFixed2))
        (some (resolveDate pC8.date ("2024-01-09"))) ("2024-01-09") 3).1.txns
      = (submitFootprint initState pC8 ("2024-01-09") 3).1.txns :=
  c8_award_path_equivalence initState pC8 ("2024-01-09") 3
    (submitFootprint initState pC8 ("2024-01-09") 3).1
    (awardSummaryOf sC8mid pC8.user
      ((submitEntry initState pC8 ("2024-01-09")).total_score)
      (some (resolveDate pC8.date ("2024-01-09"))) ("2024-01-09") 3)
    (by
      rw [submitFootprint_eq, if_neg (by decide), if_neg (by decide),
        award_result_eq _ _ _ _ _ _ (by decide)]
      rfl)

/-! ### Admin summary (claims C9, C10) -/

theorem dedupFirst_mem_aux :
    ∀ (n : Nat) (l : List String), l.length ≤ n → ∀ a, (a ∈ dedupFirst l ↔ a ∈ l) := by
  intro n
  induction n with
  | zero =>
    intro l hl a
    have hnil : l = [] := List.length_eq_zero.mp (Nat.le_zero.mp hl)
    subst hnil
    simp [dedupFirst]
  | succ n ih =>
    intro l hl a
    cases l with
    | nil => simp [dedupFirst]
    | cons x xs =>
      rw [dedupFirst]
      have hlen : (xs.filter (fun y => decide (y ≠ x))).length ≤ n :=
        le_trans (List.length_filter_le _ _)
          (Nat.succ_le_succ_iff.mp (by simpa using hl))
      constructor
      · intro h
        rcases List.mem_cons.mp h with h | h
        · subst h; exact List.mem_cons_self _ _
        · have hmem := (ih _ hlen a).mp h
          exact List.mem_cons_of_mem _ (List.mem_filter.mp hmem).1
      · intro h
        rcases List.mem_cons.mp h with h | h
        · subst h; exact List.mem_cons_self _ _
        · by_cases hax : a = x
          · subst hax; exact List.mem_cons_self _ _
          · exact List.mem_cons_of_mem _
              ((ih _ hlen a).mpr (List.mem_filter.mpr ⟨h, by simp [hax]⟩))

theorem mem_dedupFirst (l : List String) (a : String) :
    a ∈ dedupFirst l ↔ a ∈ l :=
  dedupFirst_mem_aux l.length l le_rfl a

theorem mem_walletUsers (s : St) (u : String) :
    u ∈ walletUsers s ↔ hasWallet s u := by
  simp [walletUsers, hasWallet]

theorem mem_footprintUsers (s : St) (u : String) :
    u ∈ footprintUsers s ↔ hasFootprints s u := by
  rw [footprintUsers, mem_dedupFirst]
  simp [hasFootprints]

/-- Claim C9: the admin summary's employees list covers exactly the union
of wallet users and footprint users (every row being the row built for
its user); a user with a wallet but no footprint records appears with
`averageScore = none` and `entries = 0`; a user with footprints but no
wallet appears with `credits = 0`. -/
theorem c9_admin_union (s : St) (u : String) :
    (u ∈ adminUsers s ↔ hasWallet s u ∨ hasFootprints s u)
    ∧ (∀ e ∈ adminEmployees s, e = employeeFor s e.user)
    ∧ (hasWallet s u → ¬hasFootprints s u →
        (employeeFor s u).averageScore = none ∧ (employeeFor s u).entries = 0)
    ∧ (hasFootprints s u → ¬hasWallet s u → (employeeFor s u).credits = 0) := by
  refine ⟨?_, ?_, ?_, ?_⟩
  · rw [adminUsers, mem_dedupFirst, List.mem_append]
    exact or_congr (mem_walletUsers s u) (mem_footprintUsers s u)
  · intro e he
    obtain ⟨u0, hu0, hfe⟩ := List.mem_map.mp he
    subst hfe
    rfl
  · intro hw hnf
    have hrec : recsFor s u = [] := by
      refine List.filter_eq_nil_iff.mpr ?_
      intro r hr hc
      exact hnf ⟨r, hr, of_decide_eq_true hc⟩
    have hagg : aggFor s u = none := by
      simp [aggFor, hrec]
    constructor <;> simp [employeeFor, hagg]
  · intro hf hw
    have hfw : findWallet s u = none := by
      refine List.find?_eq_none.mpr ?_
      intro w hwmem hc
      exact hw ⟨w, hwmem, of_decide_eq_true hc⟩
    simp [employeeFor, hfw]

/-- Witness for `c9_admin_union` at a concrete store: the user owning
only a wallet gets a `none` average and zero entries. -/
theorem c9_admin_union_witness :
    (employeeFor sC9 ("w@x")).averageScore = none
    ∧ (employeeFor sC9 ("w@x")).entries = 0 :=
  (c9_admin_union sC9 ("w@x")).2.2.1 ⟨wC9, by simp [sC9], rfl⟩
    (by simp [hasFootprints, sC9, rC9])

/-- Claim C10: a user whose footprint records average to exactly 0 is
reported with `averageScore = none` (`avg || null` swallows the falsy 0),
exactly like a user with no records; and that user's addend in the
organization-wide mean of per-user averages is 0 while the user still
counts in its denominator (being a row of the aggregation list). -/
theorem c10_zero_average (s : St) (u : String) (k : Nat)
    (h : aggFor s u = some (.fin 0, k)) :
    (employeeFor s u).averageScore = none
    ∧ (∀ v, aggFor s v = none → (employeeFor s v).averageScore = none)
    ∧ orgTerm (.fin 0) = .fin 0
    ∧ (u, JSNum.fin 0, k) ∈ aggList s := by
  refine ⟨?_, ?_, by simp [orgTerm, JSNum.truthy], ?_⟩
  · simp [employeeFor, h, JSNum.truthy]
  · intro v hv
    simp [employeeFor, hv]
  · have hne : recsFor s u ≠ [] := by
      intro hc
      simp [aggFor, hc] at h
    have hu : u ∈ footprintUsers s := by
      rw [mem_footprintUsers]
      obtain ⟨r, hr⟩ := List.exists_mem_of_ne_nil _ hne
      have hmem := List.mem_filter.mp hr
      exact ⟨r, hmem.1, of_decide_eq_true hmem.2⟩
    rw [aggList]
    refine List.mem_map.mpr ⟨u, hu, ?_⟩
    rw [h]
    rfl

/-- Witness for `c10_zero_average` at a concrete store with one record of
total score 0. -/
theorem c10_zero_average_witness :
    (employeeFor sC10 ("z@x")).averageScore = none
    ∧ (∀ v, aggFor sC10 v = none → (employeeFor sC10 v).averageScore = none)
    ∧ orgTerm (.fin 0) = .fin 0
    ∧ ((("z@x") : String), JSNum.fin 0, 1) ∈ aggList sC10 :=
  c10_zero_average sC10 ("z@x") 1
    (by simp [aggFor, recsFor, sC10, rC10, JSNum.add, JSNum.div, List.filter])

end Carbon
